import Mathlib

/-!
Verification development for the Arogya wellness-assistant backend.

The embedding covers:
* the API key pool (credential rotation with exhaustion tracking),
* the shared conversation memory (an ordered transcript of turns),
* the four agent functions of `services/agents.py` (symptom, lifestyle,
  diet, fitness) with their retry-once policy,
* the history store of `services/history_store.py`,
* the user store of `services/user_auth_store.py`.

The remote model client is modelled as an oracle mapping a global call
index and the composed message list to an outcome (text or failure), so
that the retry behaviour of the agents can be analysed for every possible
pattern of remote failures.
-/

/-- Modelled from the spec: the key pool of `services/api_key_pool.py`
(the file is not part of the sources given).  It owns an ordered list of
credential strings, a rotation cursor, and the set of credentials marked
exhausted. -/
structure KeyPool where
  keys : List String
  cursor : Nat
  exhausted : List String
deriving DecidableEq

/-- Modelled from the spec: cyclic scan helper for round-robin selection.
Starting at position `start` it scans at most `fuel` consecutive positions
(mod the pool size) and returns the index of the first credential not
marked exhausted. -/
def findAvail (keys exhausted : List String) : Nat → Nat → Option Nat
  | _, 0 => none
  | start, fuel + 1 =>
    match keys.get? (start % keys.length) with
    | none => none
    | some k =>
      if k ∈ exhausted then findAvail keys exhausted (start + 1) fuel
      else some (start % keys.length)

/-- Modelled from the spec: `get_next_key` — return the next credential in
round-robin order among those not marked exhausted; if every credential is
exhausted, return the next credential in rotation order anyway (degraded
mode).  Returns `none` only for an empty pool. -/
def KeyPool.next (p : KeyPool) : Option (String × KeyPool) :=
  match findAvail p.keys p.exhausted p.cursor p.keys.length with
  | some i =>
    match p.keys.get? i with
    | some k => some (k, { p with cursor := i + 1 })
    | none => none
  | none =>
    match p.keys.get? (p.cursor % p.keys.length) with
    | some k => some (k, { p with cursor := p.cursor % p.keys.length + 1 })
    | none => none

/-- Modelled from the spec: `mark_key_quota_exceeded` — flip a credential
to exhausted; idempotent; does not move the cursor. -/
def KeyPool.markExhausted (p : KeyPool) (c : String) : KeyPool :=
  if c ∈ p.exhausted then p else { p with exhausted := c :: p.exhausted }

/-- Operations a caller can perform on the pool, used to state that a
credential stays exhausted under every later interaction. -/
inductive PoolOp where
  | step
  | mark (c : String)
deriving DecidableEq

/-- Apply one pool operation: `step` draws a credential via `next` and
keeps the updated pool, `mark c` marks `c` exhausted. -/
def PoolOp.apply (p : KeyPool) : PoolOp → KeyPool
  | .step =>
    match p.next with
    | some (_, p') => p'
    | none => p
  | .mark c => p.markExhausted c

/-- Apply a sequence of pool operations from left to right. -/
def applyOps (p : KeyPool) (ops : List PoolOp) : KeyPool :=
  ops.foldl PoolOp.apply p

/- ### Shared memory and messages -/

/-- Message roles of a composed prompt list: `SystemMessage` and
`HumanMessage` from the source; `ai` entries come from replaying the shared
memory history as prior conversational turns. -/
inductive Message where
  | system (content : String)
  | human (content : String)
  | ai (content : String)
deriving DecidableEq

/-- Modelled from the spec: one (input, output) turn of the shared
conversation memory (`services/memory.py` is not part of the sources
given). -/
structure ConversationTurn where
  input : String
  output : String
deriving DecidableEq

/-- Modelled from the spec: `load_memory_variables({})["chat_history"]` —
the ordered transcript replayed as alternating human/ai messages. -/
def historyMessages (memory : List ConversationTurn) : List Message :=
  memory.flatMap fun t => [Message.human t.input, Message.ai t.output]

/-- Outcome of one remote completion call: generated text, or an opaque
failure. -/
inductive CallResult where
  | ok (text : String)
  | err
deriving DecidableEq

/-- Process state visible to an agent invocation: the key pool, the shared
conversation memory, and a global count of remote calls made so far (used
to index the remote-client oracle). -/
structure AgentState where
  pool : KeyPool
  memory : List ConversationTurn
  calls : Nat
deriving DecidableEq

/-- Remote model client as an oracle: given the global call index and the
composed message list, either return text or fail. -/
abbrev Client := Nat → List Message → CallResult

/-- Python string slice `s[:n]` on the code-point sequence. -/
def pyTake (s : String) (n : Nat) : String := ⟨s.data.take n⟩

/- ### Prompt texts and memory labels, transcribed from services/agents.py -/

/-- System instruction of the symptom agent. -/
def symptomSystem : String :=
  "You are a safe medical triage assistant. You only assess severity and suggest if the user should see a doctor. Do not provide diagnoses or prescriptions.\n\nYou may consider structured information from a lab/medical report if it is provided, but still MUST NOT diagnose or prescribe."

/-- Task message of the symptom agent. -/
def symptomTask (symptoms report : String) : String :=
  "Analyze these symptoms and their possible severity.\n\nSymptoms:\n" ++ symptoms ++
    "\n\nMedical report text (may be empty):\n" ++ report

/-- Memory input label written by the symptom agent: the full symptoms
text plus the report truncated to 120 characters. -/
def symptomLabel (symptoms report : String) : String :=
  "[symptom_agent] symptoms=" ++ symptoms ++ " report_snippet=" ++ pyTake report 120

/-- System instruction of the lifestyle agent. -/
def lifestyleSystem : String :=
  "You are a lifestyle coach collaborating with other agents. Suggest simple lifestyle habits, sleep hygiene, stress management, and daily routine tips. Keep suggestions safe and generic.\n\nIf lab values or diagnoses are mentioned in the report, you may reference them in very general language (for example \x27elevated blood sugar\x27), but do NOT add new diagnoses or change treatment."

/-- Task message of the lifestyle agent. -/
def lifestylePrompt (symptoms report : String) : String :=
  "Given the conversation so far, the user\x27s symptoms, and any available medical report text, suggest lifestyle changes and constraints.\n\nSymptoms:\n" ++ symptoms ++
    "\n\nMedical report text (may be empty):\n" ++ report

/-- Memory input label written by the lifestyle agent. -/
def lifestyleLabel (symptoms report : String) : String :=
  "[lifestyle_agent] " ++ pyTake (lifestylePrompt symptoms report) 160

/-- System instruction of the diet agent. -/
def dietSystem : String :=
  "You are a dietician collaborating with other agents to give general diet guidance. Never claim to cure diseases or override a doctor\x27s advice. Do not name prescription medicines or doses."

/-- Task message of the diet agent: symptoms, report, the lifestyle
agent's notes, and the retrieved knowledge-base snippets. -/
def dietPrompt (symptoms report lifestyle_notes kb : String) : String :=
  "User symptoms:\n" ++ symptoms ++
    "\n\nRelevant medical report text (may be empty):\n" ++ report ++
    "\n\nLifestyle information from lifestyle_agent:\n" ++ lifestyle_notes ++
    "\n\nEvidence / knowledge base snippets:\n" ++ kb ++
    "\n\nSuggest a safe, balanced diet plan. Mention foods to prefer and foods to avoid. Highlight that this is not a replacement for a dietician or doctor."

/-- Memory input label written by the diet agent. -/
def dietLabel (symptoms report lifestyle_notes kb : String) : String :=
  "[diet_agent] " ++ pyTake (dietPrompt symptoms report lifestyle_notes kb) 160

/-- System instruction of the fitness agent. -/
def fitnessSystem : String :=
  "You are a cautious fitness coach. You design simple, low‑intensity plans that are generally safe. Always recommend consulting a doctor before heavy exercise."

/-- Task message of the fitness agent: symptoms and the diet agent's
notes. -/
def fitnessPrompt (symptoms diet_notes : String) : String :=
  "User symptoms:\n" ++ symptoms ++
    "\n\nDiet constraints from diet_agent:\n" ++ diet_notes ++
    "\n\nRecommend only low‑risk, gentle physical activities, and clearly tell the user to stop if they feel pain or discomfort. Always remind them to talk to their doctor before starting or intensifying exercise."

/-- Memory input label written by the fitness agent. -/
def fitnessLabel (symptoms diet_notes : String) : String :=
  "[fitness_agent] " ++ pyTake (fitnessPrompt symptoms diet_notes) 160

/- ### Agent invocations, transcribed from services/agents.py -/

/-- Shared retry core (the try/except pattern duplicated across the four
agents): draw a key, call the remote client; on failure mark that key
exhausted, draw a fresh key and call once more; a second failure
propagates, carrying the mutated process state. -/
def invokeWithRetry (client : Client) (messages : List Message)
    (st : AgentState) : Except AgentState (String × AgentState) :=
  match st.pool.next with
  | none => .error st
  | some (key, pool1) =>
    match client st.calls messages with
    | .ok result => .ok (result, ⟨pool1, st.memory, st.calls + 1⟩)
    | .err =>
      match (pool1.markExhausted key).next with
      | none => .error ⟨pool1.markExhausted key, st.memory, st.calls + 1⟩
      | some (_, pool3) =>
        match client (st.calls + 1) messages with
        | .ok result => .ok (result, ⟨pool3, st.memory, st.calls + 2⟩)
        | .err => .error ⟨pool3, st.memory, st.calls + 2⟩

/-- Generic shape of one agent invocation: retry-once remote call on a
composed message list, then on success append one turn with the given
input label and the full result text. -/
def agentStep (client : Client) (messages : List Message) (label : String)
    (st : AgentState) : Except AgentState (String × AgentState) :=
  match invokeWithRetry client messages st with
  | .error st1 => .error st1
  | .ok (result, st1) =>
    .ok (result, ⟨st1.pool, st1.memory ++ [⟨label, result⟩], st1.calls⟩)

/-- Transcription of `symptom_agent`. -/
def symptom_agent (client : Client) (symptoms report : String)
    (st : AgentState) : Except AgentState (String × AgentState) :=
  let history := historyMessages st.memory
  let messages := [Message.system symptomSystem] ++ history ++
    [Message.human (symptomTask symptoms report)]
  let attempt : Except AgentState (String × AgentState) :=
    match st.pool.next with
    | none => .error st
    | some (key, pool1) =>
      match client st.calls messages with
      | .ok result => .ok (result, ⟨pool1, st.memory, st.calls + 1⟩)
      | .err =>
        match (pool1.markExhausted key).next with
        | none => .error ⟨pool1.markExhausted key, st.memory, st.calls + 1⟩
        | some (_, pool3) =>
          match client (st.calls + 1) messages with
          | .ok result => .ok (result, ⟨pool3, st.memory, st.calls + 2⟩)
          | .err => .error ⟨pool3, st.memory, st.calls + 2⟩
  match attempt with
  | .error st1 => .error st1
  | .ok (result, st1) =>
    .ok (result,
      ⟨st1.pool, st1.memory ++ [⟨symptomLabel symptoms report, result⟩], st1.calls⟩)

/-- Transcription of `lifestyle_agent`. -/
def lifestyle_agent (client : Client) (symptoms report : String)
    (st : AgentState) : Except AgentState (String × AgentState) :=
  let history := historyMessages st.memory
  let prompt := lifestylePrompt symptoms report
  let messages := [Message.system lifestyleSystem] ++ history ++
    [Message.human prompt]
  let attempt : Except AgentState (String × AgentState) :=
    match st.pool.next with
    | none => .error st
    | some (key, pool1) =>
      match client st.calls messages with
      | .ok result => .ok (result, ⟨pool1, st.memory, st.calls + 1⟩)
      | .err =>
        match (pool1.markExhausted key).next with
        | none => .error ⟨pool1.markExhausted key, st.memory, st.calls + 1⟩
        | some (_, pool3) =>
          match client (st.calls + 1) messages with
          | .ok result => .ok (result, ⟨pool3, st.memory, st.calls + 2⟩)
          | .err => .error ⟨pool3, st.memory, st.calls + 2⟩
  match attempt with
  | .error st1 => .error st1
  | .ok (result, st1) =>
    .ok (result,
      ⟨st1.pool, st1.memory ++ [⟨"[lifestyle_agent] " ++ pyTake prompt 160, result⟩],
        st1.calls⟩)

/-- Transcription of `diet_agent`; `retrieve_context` is the knowledge
retriever of `services/rag.py`, passed as an oracle. -/
def diet_agent (client : Client) (retrieve_context : String → String)
    (symptoms report lifestyle_notes : String) (st : AgentState) :
    Except AgentState (String × AgentState) :=
  let history := historyMessages st.memory
  let kb := retrieve_context symptoms
  let prompt := dietPrompt symptoms report lifestyle_notes kb
  let messages := [Message.system dietSystem] ++ history ++
    [Message.human prompt]
  let attempt : Except AgentState (String × AgentState) :=
    match st.pool.next with
    | none => .error st
    | some (key, pool1) =>
      match client st.calls messages with
      | .ok result => .ok (result, ⟨pool1, st.memory, st.calls + 1⟩)
      | .err =>
        match (pool1.markExhausted key).next with
        | none => .error ⟨pool1.markExhausted key, st.memory, st.calls + 1⟩
        | some (_, pool3) =>
          match client (st.calls + 1) messages with
          | .ok result => .ok (result, ⟨pool3, st.memory, st.calls + 2⟩)
          | .err => .error ⟨pool3, st.memory, st.calls + 2⟩
  match attempt with
  | .error st1 => .error st1
  | .ok (result, st1) =>
    .ok (result,
      ⟨st1.pool, st1.memory ++ [⟨"[diet_agent] " ++ pyTake prompt 160, result⟩],
        st1.calls⟩)

/-- Transcription of `fitness_agent`. -/
def fitness_agent (client : Client) (symptoms diet_notes : String)
    (st : AgentState) : Except AgentState (String × AgentState) :=
  let history := historyMessages st.memory
  let prompt := fitnessPrompt symptoms diet_notes
  let messages := [Message.system fitnessSystem] ++ history ++
    [Message.human prompt]
  let attempt : Except AgentState (String × AgentState) :=
    match st.pool.next with
    | none => .error st
    | some (key, pool1) =>
      match client st.calls messages with
      | .ok result => .ok (result, ⟨pool1, st.memory, st.calls + 1⟩)
      | .err =>
        match (pool1.markExhausted key).next with
        | none => .error ⟨pool1.markExhausted key, st.memory, st.calls + 1⟩
        | some (_, pool3) =>
          match client (st.calls + 1) messages with
          | .ok result => .ok (result, ⟨pool3, st.memory, st.calls + 2⟩)
          | .err => .error ⟨pool3, st.memory, st.calls + 2⟩
  match attempt with
  | .error st1 => .error st1
  | .ok (result, st1) =>
    .ok (result,
      ⟨st1.pool, st1.memory ++ [⟨"[fitness_agent] " ++ pyTake prompt 160, result⟩],
        st1.calls⟩)

/- ### History store (services/history_store.py) -/

/-- JSON object of `storage/history.json`, keyed by user id: an ordered
association list (Python dicts preserve insertion order and have unique
keys); values are the per-user entry lists. -/
abbrev HistoryData (α : Type) := List (String × List α)

/-- File state of `storage/history.json`: `none` when the file does not
exist. -/
abbrev HistoryFile (α : Type) := Option (HistoryData α)

/-- Transcription of `load`: return the stored data, or an empty dict when
the file does not exist. -/
def load {α : Type} (fs : HistoryFile α) : HistoryData α :=
  match fs with
  | none => []
  | some d => d

/-- Transcription of `save`: overwrite the file with the given dict. -/
def save {α : Type} (d : HistoryData α) (_fs : HistoryFile α) : HistoryFile α :=
  some d

/-- Python `data.setdefault(user_id, []).append(entry)`: append to the
entry list of `user_id` in place, creating it as a fresh singleton when
the key is absent. -/
def setdefaultAppend {α : Type} : HistoryData α → String → α → HistoryData α
  | [], u, e => [(u, [e])]
  | (k, l) :: rest, u, e =>
    if k = u then (k, l ++ [e]) :: rest
    else (k, l) :: setdefaultAppend rest u e

/-- Transcription of the first textual definition of `save_history`
(history_store.py lines 32–38). -/
def save_history {α : Type} (user_id : String) (entry : α)
    (fs : HistoryFile α) : HistoryFile α :=
  save (setdefaultAppend (load fs) user_id entry) fs

/-- Transcription of the first textual definition of `get_history`
(history_store.py lines 46–47): `load().get(user_id, [])`. -/
def get_history {α : Type} (user_id : String) (fs : HistoryFile α) : List α :=
  ((load fs).lookup user_id).getD []

/-- Transcription of the second textual definition of `save_history`
(history_store.py lines 54–60), which shadows the first. -/
def save_history2 {α : Type} (user_id : String) (entry : α)
    (fs : HistoryFile α) : HistoryFile α :=
  save (setdefaultAppend (load fs) user_id entry) fs

/-- Transcription of the second textual definition of `get_history`
(history_store.py lines 68–69), which shadows the first. -/
def get_history2 {α : Type} (user_id : String) (fs : HistoryFile α) : List α :=
  ((load fs).lookup user_id).getD []

/- ### User store (services/user_auth_store.py) -/

/-- One record of `storage/users.json`. -/
structure UserRec where
  username : String
  password : String
  full_name : String
deriving DecidableEq

/-- File state of `storage/users.json`: `none` when the file does not
exist. -/
abbrev UsersFile := Option (List UserRec)

/-- Transcription of `_load_users` (the leading underscore is dropped). -/
def loadUsers (fs : UsersFile) : List UserRec :=
  match fs with
  | none => []
  | some us => us

/-- Transcription of `create_user`: an existing username is rejected and
the file is left untouched; otherwise one record is appended and
persisted. -/
def create_user (username password full_name : String) (fs : UsersFile) :
    Bool × UsersFile :=
  let users := loadUsers fs
  if users.any (fun u => u.username == username) then (false, fs)
  else (true, some (users ++ [⟨username, password, full_name⟩]))

/- ### Key pool lemmas -/

lemma findAvail_sound {keys exhausted : List String} :
    ∀ fuel start i, findAvail keys exhausted start fuel = some i →
      ∃ k, keys.get? i = some k ∧ k ∉ exhausted := by
  intro fuel
  induction fuel with
  | zero => intro start i h; simp [findAvail] at h
  | succ n ih =>
    intro start i h
    unfold findAvail at h
    split at h
    · exact absurd h (by simp)
    · rename_i k hg
      split at h
      · exact ih _ _ h
      · rename_i hk
        cases h
        exact ⟨k, hg, hk⟩

lemma findAvail_complete {keys exhausted : List String} :
    ∀ fuel start,
      (∃ j, j < fuel ∧ ∃ k, keys.get? ((start + j) % keys.length) = some k ∧
        k ∉ exhausted) →
      (findAvail keys exhausted start fuel).isSome := by
  intro fuel
  induction fuel with
  | zero =>
    intro start h
    obtain ⟨j, hj, -⟩ := h
    omega
  | succ n ih =>
    intro start h
    obtain ⟨j, hj, k, hk, hke⟩ := h
    unfold findAvail
    have hlen : 0 < keys.length := by
      by_contra hle
      have h0 : keys.length = 0 := by omega
      have hnil : keys = [] := List.length_eq_zero.mp h0
      subst hnil
      simp at hk
    have hlt : start % keys.length < keys.length := Nat.mod_lt _ hlen
    split
    · rename_i hg
      have := List.get?_eq_none.mp hg
      omega
    · rename_i k0 hg
      split
      · rename_i hk0
        rcases Nat.eq_zero_or_pos j with hj0 | hjpos
        · subst hj0
          simp only [Nat.add_zero] at hk
          rw [hg] at hk
          cases hk
          exact absurd hk0 hke
        · apply ih (start + 1)
          refine ⟨j - 1, by omega, k, ?_, hke⟩
          have harith : start + 1 + (j - 1) = start + j := by omega
          rw [harith]
          exact hk
      · simp

/-- Scanning one full cycle from any start position reaches any given
index of the pool. -/
lemma cycle_hit (n m start : Nat) (hm : m < n) :
    ∃ j, j < n ∧ (start + j) % n = m := by
  have hn : 0 < n := by omega
  have hs : start % n < n := Nat.mod_lt _ hn
  rcases le_or_lt (start % n) m with h | h
  · refine ⟨m - start % n, by omega, ?_⟩
    rw [Nat.add_mod, Nat.mod_eq_of_lt (show m - start % n < n by omega)]
    have hsum : start % n + (m - start % n) = m := by omega
    rw [hsum, Nat.mod_eq_of_lt hm]
  · refine ⟨m + n - start % n, by omega, ?_⟩
    rw [Nat.add_mod, Nat.mod_eq_of_lt (show m + n - start % n < n by omega)]
    have hsum : start % n + (m + n - start % n) = m + n := by omega
    rw [hsum, Nat.add_mod_right, Nat.mod_eq_of_lt hm]

/-- The `next` operation changes only the cursor: keys and exhausted set
are preserved. -/
lemma next_keys_exhausted {p p' : KeyPool} {k : String}
    (hn : p.next = some (k, p')) :
    p'.keys = p.keys ∧ p'.exhausted = p.exhausted := by
  unfold KeyPool.next at hn
  split at hn
  · split at hn
    · simp only [Option.some.injEq, Prod.mk.injEq] at hn
      obtain ⟨rfl, rfl⟩ := hn
      exact ⟨rfl, rfl⟩
    · exact absurd hn (by simp)
  · split at hn
    · simp only [Option.some.injEq, Prod.mk.injEq] at hn
      obtain ⟨rfl, rfl⟩ := hn
      exact ⟨rfl, rfl⟩
    · exact absurd hn (by simp)

/-- When some credential is still available, `next` returns a credential
that is not marked exhausted. -/
lemma next_avail {p : KeyPool} (havail : ∃ a ∈ p.keys, a ∉ p.exhausted) :
    ∀ k p', p.next = some (k, p') → k ∉ p.exhausted := by
  intro k p' hnext
  obtain ⟨a, hamem, hae⟩ := havail
  obtain ⟨m, hm⟩ := List.mem_iff_get?.mp hamem
  have hmlt : m < p.keys.length := by
    obtain ⟨hlt, -⟩ := List.get?_eq_some.mp hm
    exact hlt
  obtain ⟨j, hj, hcyc⟩ := cycle_hit p.keys.length m p.cursor hmlt
  have hsome : (findAvail p.keys p.exhausted p.cursor p.keys.length).isSome := by
    apply findAvail_complete
    exact ⟨j, hj, a, by rw [hcyc]; exact hm, hae⟩
  unfold KeyPool.next at hnext
  split at hnext
  · rename_i i hfa
    obtain ⟨k0, hk0, hk0e⟩ := findAvail_sound p.keys.length p.cursor i hfa
    split at hnext
    · rename_i k1 hk1
      simp only [Option.some.injEq, Prod.mk.injEq] at hnext
      obtain ⟨rfl, rfl⟩ := hnext
      rw [hk0] at hk1
      cases hk1
      exact hk0e
    · exact absurd hnext (by simp)
  · rename_i hfa
    rw [hfa] at hsome
    simp at hsome

/-- For a nonempty pool, `next` always yields a credential from the pool
and changes only the cursor. -/
lemma next_of_ne_nil {p : KeyPool} (h : p.keys ≠ []) :
    ∃ k p', p.next = some (k, p') ∧ k ∈ p.keys ∧
      p'.keys = p.keys ∧ p'.exhausted = p.exhausted := by
  have hlen : 0 < p.keys.length := List.length_pos.mpr h
  unfold KeyPool.next
  split
  · rename_i i hfa
    obtain ⟨k, hk, -⟩ := findAvail_sound p.keys.length p.cursor i hfa
    rw [hk]
    exact ⟨k, _, rfl, List.get?_mem hk, rfl, rfl⟩
  · have hlt : p.cursor % p.keys.length < p.keys.length := Nat.mod_lt _ hlen
    cases hg : p.keys.get? (p.cursor % p.keys.length) with
    | none =>
      have := List.get?_eq_none.mp hg
      omega
    | some k =>
      exact ⟨k, _, rfl, List.get?_mem hg, rfl, rfl⟩

lemma next_isSome_of_ne_nil {p : KeyPool} (h : p.keys ≠ []) :
    p.next.isSome := by
  obtain ⟨k, p', hnext, -⟩ := next_of_ne_nil h
  rw [hnext]
  rfl

lemma markExhausted_exhausted_of_not_mem {p : KeyPool} {c : String}
    (h : c ∉ p.exhausted) :
    (p.markExhausted c).exhausted = c :: p.exhausted := by
  unfold KeyPool.markExhausted
  rw [if_neg h]

lemma markExhausted_mem {p : KeyPool} {c d : String} (h : d ∈ p.exhausted) :
    d ∈ (p.markExhausted c).exhausted := by
  unfold KeyPool.markExhausted
  split
  · exact h
  · exact List.mem_cons_of_mem _ h

lemma markExhausted_mem_self (p : KeyPool) (c : String) :
    c ∈ (p.markExhausted c).exhausted := by
  unfold KeyPool.markExhausted
  split
  · assumption
  · exact List.mem_cons_self _ _

lemma markExhausted_keys (p : KeyPool) (c : String) :
    (p.markExhausted c).keys = p.keys := by
  unfold KeyPool.markExhausted
  split <;> rfl

lemma poolOp_apply_exhausted_mono {p : KeyPool} {c : String} (op : PoolOp)
    (h : c ∈ p.exhausted) : c ∈ (op.apply p).exhausted := by
  cases op with
  | step =>
    unfold PoolOp.apply
    cases hn : p.next with
    | none => exact h
    | some kp =>
      obtain ⟨k, p'⟩ := kp
      obtain ⟨-, hex⟩ := next_keys_exhausted hn
      simpa [hex] using h
  | mark d => exact markExhausted_mem h

lemma applyOps_exhausted_mono {p : KeyPool} {c : String} (ops : List PoolOp)
    (h : c ∈ p.exhausted) : c ∈ (applyOps p ops).exhausted := by
  induction ops generalizing p with
  | nil => exact h
  | cons op rest ih =>
    exact ih (poolOp_apply_exhausted_mono op h)

/- ### Factoring lemmas: each agent is an instance of the shared pattern -/

lemma symptom_eq_step (client : Client) (symptoms report : String)
    (st : AgentState) :
    symptom_agent client symptoms report st =
      agentStep client
        ([Message.system symptomSystem] ++ historyMessages st.memory ++
          [Message.human (symptomTask symptoms report)])
        (symptomLabel symptoms report) st := rfl

lemma lifestyle_eq_step (client : Client) (symptoms report : String)
    (st : AgentState) :
    lifestyle_agent client symptoms report st =
      agentStep client
        ([Message.system lifestyleSystem] ++ historyMessages st.memory ++
          [Message.human (lifestylePrompt symptoms report)])
        (lifestyleLabel symptoms report) st := rfl

lemma diet_eq_step (client : Client) (retrieve_context : String → String)
    (symptoms report lifestyle_notes : String) (st : AgentState) :
    diet_agent client retrieve_context symptoms report lifestyle_notes st =
      agentStep client
        ([Message.system dietSystem] ++ historyMessages st.memory ++
          [Message.human
            (dietPrompt symptoms report lifestyle_notes (retrieve_context symptoms))])
        (dietLabel symptoms report lifestyle_notes (retrieve_context symptoms)) st := rfl

lemma fitness_eq_step (client : Client) (symptoms diet_notes : String)
    (st : AgentState) :
    fitness_agent client symptoms diet_notes st =
      agentStep client
        ([Message.system fitnessSystem] ++ historyMessages st.memory ++
          [Message.human (fitnessPrompt symptoms diet_notes)])
        (fitnessLabel symptoms diet_notes) st := rfl

/- ### Generic lemmas about the shared agent pattern -/

lemma invokeWithRetry_ok_memory {client : Client} {messages : List Message}
    {st : AgentState} {t : String} {st1 : AgentState}
    (h : invokeWithRetry client messages st = .ok (t, st1)) :
    st1.memory = st.memory := by
  unfold invokeWithRetry at h
  split at h
  · exact absurd h (by simp)
  · split at h
    · simp only [Except.ok.injEq, Prod.mk.injEq] at h
      obtain ⟨rfl, rfl⟩ := h
      rfl
    · split at h
      · exact absurd h (by simp)
      · split at h
        · simp only [Except.ok.injEq, Prod.mk.injEq] at h
          obtain ⟨rfl, rfl⟩ := h
          rfl
        · exact absurd h (by simp)

lemma invokeWithRetry_error_memory {client : Client} {messages : List Message}
    {st st1 : AgentState}
    (h : invokeWithRetry client messages st = .error st1) :
    st1.memory = st.memory := by
  unfold invokeWithRetry at h
  split at h
  · cases h
    rfl
  · split at h
    · exact absurd h (by simp)
    · split at h
      · cases h
        rfl
      · split at h
        · exact absurd h (by simp)
        · cases h
          rfl

lemma agentStep_ok_memory {client : Client} {messages : List Message}
    {label : String} {st : AgentState} {t : String} {st' : AgentState}
    (h : agentStep client messages label st = .ok (t, st')) :
    st'.memory = st.memory ++ [⟨label, t⟩] := by
  unfold agentStep at h
  split at h
  · exact absurd h (by simp)
  · rename_i result st1 heq
    simp only [Except.ok.injEq, Prod.mk.injEq] at h
    obtain ⟨rfl, rfl⟩ := h
    show st1.memory ++ [⟨label, result⟩] = st.memory ++ [⟨label, result⟩]
    rw [invokeWithRetry_ok_memory heq]

lemma agentStep_error_memory {client : Client} {messages : List Message}
    {label : String} {st st' : AgentState}
    (h : agentStep client messages label st = .error st') :
    st'.memory = st.memory := by
  unfold agentStep at h
  split at h
  · rename_i st1 heq
    cases h
    exact invokeWithRetry_error_memory heq
  · exact absurd h (by simp)

/-- Success on the first remote call: one call is made, one turn appended,
the pool is only rotated. -/
lemma agentStep_first_ok {client : Client} {st : AgentState} {t : String}
    (messages : List Message) (label : String)
    (hkeys : st.pool.keys ≠ [])
    (hok : ∀ m, client st.calls m = CallResult.ok t) :
    ∃ pool1, agentStep client messages label st =
        .ok (t, ⟨pool1, st.memory ++ [⟨label, t⟩], st.calls + 1⟩) ∧
      pool1.keys = st.pool.keys ∧ pool1.exhausted = st.pool.exhausted := by
  obtain ⟨k, pool1, hnext, hkmem, hkeys1, hex1⟩ := next_of_ne_nil hkeys
  refine ⟨pool1, ?_, hkeys1, hex1⟩
  simp only [agentStep, invokeWithRetry, hnext, hok]

/-- Failure then success: two calls are made, the first credential is
marked exhausted, one turn is appended with the second attempt's text. -/
lemma agentStep_fail_ok {client : Client} {st : AgentState} {t : String}
    (messages : List Message) (label : String)
    (hkeys : st.pool.keys ≠ [])
    (havail : ∃ a ∈ st.pool.keys, a ∉ st.pool.exhausted)
    (hfail : ∀ m, client st.calls m = CallResult.err)
    (hok : ∀ m, client (st.calls + 1) m = CallResult.ok t) :
    ∃ k1 pool3, agentStep client messages label st =
        .ok (t, ⟨pool3, st.memory ++ [⟨label, t⟩], st.calls + 2⟩) ∧
      k1 ∈ st.pool.keys ∧ k1 ∉ st.pool.exhausted ∧
      pool3.exhausted = k1 :: st.pool.exhausted ∧
      pool3.keys = st.pool.keys := by
  obtain ⟨k1, pool1, hnext, hk1mem, hkeys1, hex1⟩ := next_of_ne_nil hkeys
  have hk1ne : k1 ∉ st.pool.exhausted := next_avail havail _ _ hnext
  have hk1ne1 : k1 ∉ pool1.exhausted := by
    rw [hex1]
    exact hk1ne
  have hmkeys : (pool1.markExhausted k1).keys = st.pool.keys := by
    rw [markExhausted_keys, hkeys1]
  have hmex : (pool1.markExhausted k1).exhausted = k1 :: st.pool.exhausted := by
    rw [markExhausted_exhausted_of_not_mem hk1ne1, hex1]
  have hkeys2 : (pool1.markExhausted k1).keys ≠ [] := by
    rw [hmkeys]
    exact hkeys
  obtain ⟨k2, pool3, hnext2, hk2mem, hkeys3, hex3⟩ := next_of_ne_nil hkeys2
  refine ⟨k1, pool3, ?_, hk1mem, hk1ne, by rw [hex3, hmex], by rw [hkeys3, hmkeys]⟩
  simp only [agentStep, invokeWithRetry, hnext, hfail, hnext2, hok]

/-- Failure on both attempts: the failure propagates with the memory
unchanged, exactly the first credential marked exhausted, and exactly two
calls made (no third attempt). -/
lemma agentStep_fail_fail {client : Client} {st : AgentState}
    (messages : List Message) (label : String)
    (hkeys : st.pool.keys ≠ [])
    (havail : ∃ a ∈ st.pool.keys, a ∉ st.pool.exhausted)
    (hfail1 : ∀ m, client st.calls m = CallResult.err)
    (hfail2 : ∀ m, client (st.calls + 1) m = CallResult.err) :
    ∃ k1 pool3, agentStep client messages label st =
        .error ⟨pool3, st.memory, st.calls + 2⟩ ∧
      k1 ∈ st.pool.keys ∧ k1 ∉ st.pool.exhausted ∧
      pool3.exhausted = k1 :: st.pool.exhausted ∧
      pool3.keys = st.pool.keys := by
  obtain ⟨k1, pool1, hnext, hk1mem, hkeys1, hex1⟩ := next_of_ne_nil hkeys
  have hk1ne : k1 ∉ st.pool.exhausted := next_avail havail _ _ hnext
  have hk1ne1 : k1 ∉ pool1.exhausted := by
    rw [hex1]
    exact hk1ne
  have hmkeys : (pool1.markExhausted k1).keys = st.pool.keys := by
    rw [markExhausted_keys, hkeys1]
  have hmex : (pool1.markExhausted k1).exhausted = k1 :: st.pool.exhausted := by
    rw [markExhausted_exhausted_of_not_mem hk1ne1, hex1]
  have hkeys2 : (pool1.markExhausted k1).keys ≠ [] := by
    rw [hmkeys]
    exact hkeys
  obtain ⟨k2, pool3, hnext2, hk2mem, hkeys3, hex3⟩ := next_of_ne_nil hkeys2
  refine ⟨k1, pool3, ?_, hk1mem, hk1ne, by rw [hex3, hmex], by rw [hkeys3, hmkeys]⟩
  simp only [agentStep, invokeWithRetry, hnext, hfail1, hnext2, hfail2]

/- ### History store lemmas -/

lemma lookup_setdefaultAppend_self {α : Type} (d : HistoryData α) (u : String)
    (e : α) :
    (setdefaultAppend d u e).lookup u = some ((d.lookup u).getD [] ++ [e]) := by
  induction d with
  | nil => simp [setdefaultAppend, List.lookup]
  | cons p rest ih =>
    obtain ⟨k, l⟩ := p
    by_cases hku : k = u
    · subst hku
      simp [setdefaultAppend, List.lookup]
    · have hb : (u == k) = false := beq_eq_false_iff_ne.mpr (Ne.symm hku)
      simp [setdefaultAppend, hku, List.lookup, hb, ih]

lemma lookup_setdefaultAppend_other {α : Type} (d : HistoryData α)
    (u v : String) (e : α) (hvu : v ≠ u) :
    (setdefaultAppend d u e).lookup v = d.lookup v := by
  induction d with
  | nil =>
    have hb : (v == u) = false := beq_eq_false_iff_ne.mpr hvu
    simp [setdefaultAppend, List.lookup, hb]
  | cons p rest ih =>
    obtain ⟨k, l⟩ := p
    by_cases hku : k = u
    · subst hku
      have hb : (v == k) = false := beq_eq_false_iff_ne.mpr hvu
      simp [setdefaultAppend, List.lookup, hb]
    · by_cases hvk : v = k
      · subst hvk
        simp [setdefaultAppend, hku, List.lookup]
      · have hb : (v == k) = false := beq_eq_false_iff_ne.mpr hvk
        simp [setdefaultAppend, hku, List.lookup, hb, ih]

/- ### Truncation length lemmas -/

lemma pyTake_length_le (s : String) (n : Nat) : (pyTake s n).length ≤ n := by
  have h : (pyTake s n).length = (s.data.take n).length := rfl
  rw [h, List.length_take]
  exact Nat.min_le_left _ _

lemma lifestyleLabel_le (s r : String) : (lifestyleLabel s r).length ≤ 178 := by
  have h : (lifestyleLabel s r).length =
      ("[lifestyle_agent] " : String).length +
        (pyTake (lifestylePrompt s r) 160).length :=
    String.length_append _ _
  have h2 := pyTake_length_le (lifestylePrompt s r) 160
  have h3 : ("[lifestyle_agent] " : String).length = 18 := rfl
  omega

lemma dietLabel_le (s r notes kb : String) :
    (dietLabel s r notes kb).length ≤ 173 := by
  have h : (dietLabel s r notes kb).length =
      ("[diet_agent] " : String).length +
        (pyTake (dietPrompt s r notes kb) 160).length :=
    String.length_append _ _
  have h2 := pyTake_length_le (dietPrompt s r notes kb) 160
  have h3 : ("[diet_agent] " : String).length = 13 := rfl
  omega

lemma fitnessLabel_le (s dn : String) : (fitnessLabel s dn).length ≤ 176 := by
  have h : (fitnessLabel s dn).length =
      ("[fitness_agent] " : String).length +
        (pyTake (fitnessPrompt s dn) 160).length :=
    String.length_append _ _
  have h2 := pyTake_length_le (fitnessPrompt s dn) 160
  have h3 : ("[fitness_agent] " : String).length = 16 := rfl
  omega

/- ### Claim theorems -/

/-- C1 counterexample: with a remote stub failing on both calls and a
fresh two-credential pool, the symptom agent invocation fails and appends
no turn, but only ONE credential (`"keyA"`, the one used for the first
attempt) is marked exhausted — not two distinct credentials as the claim
states: the second attempt's exception propagates before any second
`mark_key_quota_exceeded` call. -/
theorem C1_counterexample :
    symptom_agent (fun _ _ => CallResult.err) "cough" "rep"
        ⟨⟨["keyA", "keyB"], 0, []⟩, [], 0⟩ =
      .error ⟨⟨["keyA", "keyB"], 2, ["keyA"]⟩, [], 2⟩ ∧
    ¬ ((⟨["keyA", "keyB"], 2, ["keyA"]⟩ : KeyPool).exhausted.length = 2) :=
  ⟨rfl, by decide⟩

/-- C1 (amended): for every agent variant, if the remote call fails on
both attempts, the invocation fails with the second exception propagating
(exactly two remote calls are made — no third attempt), zero turns are
appended to the shared memory, and exactly ONE credential — the one used
for the first attempt — is marked exhausted. -/
theorem C1_retry_exhaustion (client : Client)
    (retrieve_context : String → String)
    (symptoms report lifestyle_notes diet_notes : String) (st : AgentState)
    (hkeys : st.pool.keys ≠ [])
    (havail : ∃ a ∈ st.pool.keys, a ∉ st.pool.exhausted)
    (hfail1 : ∀ m, client st.calls m = CallResult.err)
    (hfail2 : ∀ m, client (st.calls + 1) m = CallResult.err) :
    (∃ k1 pool3, symptom_agent client symptoms report st =
        .error ⟨pool3, st.memory, st.calls + 2⟩ ∧
      k1 ∈ st.pool.keys ∧ k1 ∉ st.pool.exhausted ∧
      pool3.exhausted = k1 :: st.pool.exhausted) ∧
    (∃ k1 pool3, lifestyle_agent client symptoms report st =
        .error ⟨pool3, st.memory, st.calls + 2⟩ ∧
      k1 ∈ st.pool.keys ∧ k1 ∉ st.pool.exhausted ∧
      pool3.exhausted = k1 :: st.pool.exhausted) ∧
    (∃ k1 pool3, diet_agent client retrieve_context symptoms report
          lifestyle_notes st =
        .error ⟨pool3, st.memory, st.calls + 2⟩ ∧
      k1 ∈ st.pool.keys ∧ k1 ∉ st.pool.exhausted ∧
      pool3.exhausted = k1 :: st.pool.exhausted) ∧
    (∃ k1 pool3, fitness_agent client symptoms diet_notes st =
        .error ⟨pool3, st.memory, st.calls + 2⟩ ∧
      k1 ∈ st.pool.keys ∧ k1 ∉ st.pool.exhausted ∧
      pool3.exhausted = k1 :: st.pool.exhausted) := by
  refine ⟨?_, ?_, ?_, ?_⟩
  · obtain ⟨k1, pool3, heq, hmem, hne, hex, -⟩ :=
      agentStep_fail_fail
        ([Message.system symptomSystem] ++ historyMessages st.memory ++
          [Message.human (symptomTask symptoms report)])
        (symptomLabel symptoms report) hkeys havail hfail1 hfail2
    exact ⟨k1, pool3, by rw [symptom_eq_step]; exact heq, hmem, hne, hex⟩
  · obtain ⟨k1, pool3, heq, hmem, hne, hex, -⟩ :=
      agentStep_fail_fail
        ([Message.system lifestyleSystem] ++ historyMessages st.memory ++
          [Message.human (lifestylePrompt symptoms report)])
        (lifestyleLabel symptoms report) hkeys havail hfail1 hfail2
    exact ⟨k1, pool3, by rw [lifestyle_eq_step]; exact heq, hmem, hne, hex⟩
  · obtain ⟨k1, pool3, heq, hmem, hne, hex, -⟩ :=
      agentStep_fail_fail
        ([Message.system dietSystem] ++ historyMessages st.memory ++
          [Message.human (dietPrompt symptoms report lifestyle_notes
            (retrieve_context symptoms))])
        (dietLabel symptoms report lifestyle_notes (retrieve_context symptoms))
        hkeys havail hfail1 hfail2
    exact ⟨k1, pool3, by rw [diet_eq_step]; exact heq, hmem, hne, hex⟩
  · obtain ⟨k1, pool3, heq, hmem, hne, hex, -⟩ :=
      agentStep_fail_fail
        ([Message.system fitnessSystem] ++ historyMessages st.memory ++
          [Message.human (fitnessPrompt symptoms diet_notes)])
        (fitnessLabel symptoms diet_notes) hkeys havail hfail1 hfail2
    exact ⟨k1, pool3, by rw [fitness_eq_step]; exact heq, hmem, hne, hex⟩

/-- C1 witness: the amended retry-exhaustion behaviour at a concrete
double-failure run of the symptom agent. -/
theorem C1_retry_exhaustion_witness :
    ∃ k1 pool3,
      symptom_agent (fun _ _ => CallResult.err) "s" "r"
          ⟨⟨["keyA", "keyB"], 0, []⟩, [], 0⟩ =
        .error ⟨pool3, [], 2⟩ ∧
      k1 ∈ ["keyA", "keyB"] ∧ k1 ∉ ([] : List String) ∧
      pool3.exhausted = [k1] :=
  (C1_retry_exhaustion (fun _ _ => CallResult.err) (fun _ => "kb") "s" "r"
      "ln" "dn" ⟨⟨["keyA", "keyB"], 0, []⟩, [], 0⟩ (by decide)
      ⟨"keyA", by decide, by decide⟩ (fun _ => rfl) (fun _ => rfl)).1

/-- C2: for every agent variant, if the remote call fails on the first
attempt and succeeds on the second, the invocation succeeds with the
second attempt's text, exactly one credential — the one used for the
first attempt — is marked exhausted, and exactly one turn is appended. -/
theorem C2_retry_once (client : Client) (retrieve_context : String → String)
    (symptoms report lifestyle_notes diet_notes t : String) (st : AgentState)
    (hkeys : st.pool.keys ≠ [])
    (havail : ∃ a ∈ st.pool.keys, a ∉ st.pool.exhausted)
    (hfail : ∀ m, client st.calls m = CallResult.err)
    (hok : ∀ m, client (st.calls + 1) m = CallResult.ok t) :
    (∃ k1 pool3, symptom_agent client symptoms report st =
        .ok (t, ⟨pool3,
          st.memory ++ [⟨symptomLabel symptoms report, t⟩], st.calls + 2⟩) ∧
      k1 ∈ st.pool.keys ∧ k1 ∉ st.pool.exhausted ∧
      pool3.exhausted = k1 :: st.pool.exhausted) ∧
    (∃ k1 pool3, lifestyle_agent client symptoms report st =
        .ok (t, ⟨pool3,
          st.memory ++ [⟨lifestyleLabel symptoms report, t⟩], st.calls + 2⟩) ∧
      k1 ∈ st.pool.keys ∧ k1 ∉ st.pool.exhausted ∧
      pool3.exhausted = k1 :: st.pool.exhausted) ∧
    (∃ k1 pool3, diet_agent client retrieve_context symptoms report
          lifestyle_notes st =
        .ok (t, ⟨pool3,
          st.memory ++ [⟨dietLabel symptoms report lifestyle_notes
            (retrieve_context symptoms), t⟩], st.calls + 2⟩) ∧
      k1 ∈ st.pool.keys ∧ k1 ∉ st.pool.exhausted ∧
      pool3.exhausted = k1 :: st.pool.exhausted) ∧
    (∃ k1 pool3, fitness_agent client symptoms diet_notes st =
        .ok (t, ⟨pool3,
          st.memory ++ [⟨fitnessLabel symptoms diet_notes, t⟩], st.calls + 2⟩) ∧
      k1 ∈ st.pool.keys ∧ k1 ∉ st.pool.exhausted ∧
      pool3.exhausted = k1 :: st.pool.exhausted) := by
  refine ⟨?_, ?_, ?_, ?_⟩
  · obtain ⟨k1, pool3, heq, hmem, hne, hex, -⟩ :=
      agentStep_fail_ok
        ([Message.system symptomSystem] ++ historyMessages st.memory ++
          [Message.human (symptomTask symptoms report)])
        (symptomLabel symptoms report) hkeys havail hfail hok
    exact ⟨k1, pool3, by rw [symptom_eq_step]; exact heq, hmem, hne, hex⟩
  · obtain ⟨k1, pool3, heq, hmem, hne, hex, -⟩ :=
      agentStep_fail_ok
        ([Message.system lifestyleSystem] ++ historyMessages st.memory ++
          [Message.human (lifestylePrompt symptoms report)])
        (lifestyleLabel symptoms report) hkeys havail hfail hok
    exact ⟨k1, pool3, by rw [lifestyle_eq_step]; exact heq, hmem, hne, hex⟩
  · obtain ⟨k1, pool3, heq, hmem, hne, hex, -⟩ :=
      agentStep_fail_ok
        ([Message.system dietSystem] ++ historyMessages st.memory ++
          [Message.human (dietPrompt symptoms report lifestyle_notes
            (retrieve_context symptoms))])
        (dietLabel symptoms report lifestyle_notes (retrieve_context symptoms))
        hkeys havail hfail hok
    exact ⟨k1, pool3, by rw [diet_eq_step]; exact heq, hmem, hne, hex⟩
  · obtain ⟨k1, pool3, heq, hmem, hne, hex, -⟩ :=
      agentStep_fail_ok
        ([Message.system fitnessSystem] ++ historyMessages st.memory ++
          [Message.human (fitnessPrompt symptoms diet_notes)])
        (fitnessLabel symptoms diet_notes) hkeys havail hfail hok
    exact ⟨k1, pool3, by rw [fitness_eq_step]; exact heq, hmem, hne, hex⟩

/-- C2 witness: retry-once success at a concrete run of the symptom agent
with a stub failing first and succeeding second. -/
theorem C2_retry_once_witness :
    ∃ k1 pool3,
      symptom_agent
          (fun n _ => if n = 0 then CallResult.err else CallResult.ok "answer")
          "s" "r" ⟨⟨["keyA", "keyB"], 0, []⟩, [], 0⟩ =
        .ok ("answer", ⟨pool3, [⟨symptomLabel "s" "r", "answer"⟩], 2⟩) ∧
      k1 ∈ ["keyA", "keyB"] ∧ k1 ∉ ([] : List String) ∧
      pool3.exhausted = [k1] :=
  (C2_retry_once
      (fun n _ => if n = 0 then CallResult.err else CallResult.ok "answer")
      (fun _ => "kb") "s" "r" "ln" "dn" "answer"
      ⟨⟨["keyA", "keyB"], 0, []⟩, [], 0⟩ (by decide)
      ⟨"keyA", by decide, by decide⟩ (fun _ => rfl) (fun _ => rfl)).1

/-- C3: every successful agent invocation appends exactly one turn at the
end of the shared memory (the prior transcript untouched), every failed
invocation appends none, and invoking Symptom then Lifestyle then Diet in
sequence with an always-succeeding stub leaves exactly 3 turns in
invocation order. -/
theorem C3_memory_append_only (client : Client)
    (retrieve_context : String → String) (out : Nat → String)
    (symptoms report lifestyle_notes diet_notes : String) (st : AgentState) :
    (∀ t st', symptom_agent client symptoms report st = .ok (t, st') →
      st'.memory = st.memory ++ [⟨symptomLabel symptoms report, t⟩]) ∧
    (∀ st', symptom_agent client symptoms report st = .error st' →
      st'.memory = st.memory) ∧
    (∀ t st', lifestyle_agent client symptoms report st = .ok (t, st') →
      st'.memory = st.memory ++ [⟨lifestyleLabel symptoms report, t⟩]) ∧
    (∀ st', lifestyle_agent client symptoms report st = .error st' →
      st'.memory = st.memory) ∧
    (∀ t st', diet_agent client retrieve_context symptoms report
        lifestyle_notes st = .ok (t, st') →
      st'.memory = st.memory ++ [⟨dietLabel symptoms report lifestyle_notes
        (retrieve_context symptoms), t⟩]) ∧
    (∀ st', diet_agent client retrieve_context symptoms report
        lifestyle_notes st = .error st' → st'.memory = st.memory) ∧
    (∀ t st', fitness_agent client symptoms diet_notes st = .ok (t, st') →
      st'.memory = st.memory ++ [⟨fitnessLabel symptoms diet_notes, t⟩]) ∧
    (∀ st', fitness_agent client symptoms diet_notes st = .error st' →
      st'.memory = st.memory) ∧
    (st.memory = [] → st.calls = 0 → st.pool.keys ≠ [] →
      (∀ n m, client n m = CallResult.ok (out n)) →
      ∃ st1 st2 st3,
        symptom_agent client symptoms report st = .ok (out 0, st1) ∧
        lifestyle_agent client symptoms report st1 = .ok (out 1, st2) ∧
        diet_agent client retrieve_context symptoms report (out 1) st2 =
          .ok (out 2, st3) ∧
        st3.memory = [⟨symptomLabel symptoms report, out 0⟩,
          ⟨lifestyleLabel symptoms report, out 1⟩,
          ⟨dietLabel symptoms report (out 1) (retrieve_context symptoms),
            out 2⟩]) := by
  refine ⟨?_, ?_, ?_, ?_, ?_, ?_, ?_, ?_, ?_⟩
  · intro t st' h
    rw [symptom_eq_step] at h
    exact agentStep_ok_memory h
  · intro st' h
    rw [symptom_eq_step] at h
    exact agentStep_error_memory h
  · intro t st' h
    rw [lifestyle_eq_step] at h
    exact agentStep_ok_memory h
  · intro st' h
    rw [lifestyle_eq_step] at h
    exact agentStep_error_memory h
  · intro t st' h
    rw [diet_eq_step] at h
    exact agentStep_ok_memory h
  · intro st' h
    rw [diet_eq_step] at h
    exact agentStep_error_memory h
  · intro t st' h
    rw [fitness_eq_step] at h
    exact agentStep_ok_memory h
  · intro st' h
    rw [fitness_eq_step] at h
    exact agentStep_error_memory h
  · intro hmem hcalls hkeys hclient
    obtain ⟨pool, mem, calls⟩ := st
    simp only at hmem hcalls hkeys
    subst hmem
    subst hcalls
    obtain ⟨pool1, heq1, hkeys1, -⟩ :=
      @agentStep_first_ok client ⟨pool, [], 0⟩ (out 0)
        ([Message.system symptomSystem] ++ historyMessages [] ++
          [Message.human (symptomTask symptoms report)])
        (symptomLabel symptoms report) hkeys (fun m => hclient 0 m)
    have hs1 : symptom_agent client symptoms report ⟨pool, [], 0⟩ =
        .ok (out 0, ⟨pool1, [] ++ [⟨symptomLabel symptoms report, out 0⟩],
          0 + 1⟩) := by
      rw [symptom_eq_step]
      exact heq1
    have hkeys1' : pool1.keys ≠ [] := by
      rw [hkeys1]
      exact hkeys
    obtain ⟨pool2, heq2, hkeys2, -⟩ :=
      @agentStep_first_ok client
        ⟨pool1, [] ++ [⟨symptomLabel symptoms report, out 0⟩], 0 + 1⟩ (out 1)
        ([Message.system lifestyleSystem] ++
          historyMessages ([] ++ [⟨symptomLabel symptoms report, out 0⟩]) ++
          [Message.human (lifestylePrompt symptoms report)])
        (lifestyleLabel symptoms report) hkeys1' (fun m => hclient 1 m)
    have hs2 : lifestyle_agent client symptoms report
        ⟨pool1, [] ++ [⟨symptomLabel symptoms report, out 0⟩], 0 + 1⟩ =
        .ok (out 1, ⟨pool2,
          ([] ++ [⟨symptomLabel symptoms report, out 0⟩]) ++
            [⟨lifestyleLabel symptoms report, out 1⟩], 0 + 1 + 1⟩) := by
      rw [lifestyle_eq_step]
      exact heq2
    have hkeys2' : pool2.keys ≠ [] := by
      rw [hkeys2]
      exact hkeys1'
    obtain ⟨pool3, heq3, -, -⟩ :=
      @agentStep_first_ok client
        ⟨pool2, ([] ++ [⟨symptomLabel symptoms report, out 0⟩]) ++
          [⟨lifestyleLabel symptoms report, out 1⟩], 0 + 1 + 1⟩ (out 2)
        ([Message.system dietSystem] ++
          historyMessages (([] ++ [⟨symptomLabel symptoms report, out 0⟩]) ++
            [⟨lifestyleLabel symptoms report, out 1⟩]) ++
          [Message.human (dietPrompt symptoms report (out 1)
            (retrieve_context symptoms))])
        (dietLabel symptoms report (out 1) (retrieve_context symptoms))
        hkeys2' (fun m => hclient 2 m)
    have hs3 : diet_agent client retrieve_context symptoms report (out 1)
        ⟨pool2, ([] ++ [⟨symptomLabel symptoms report, out 0⟩]) ++
          [⟨lifestyleLabel symptoms report, out 1⟩], 0 + 1 + 1⟩ =
        .ok (out 2, ⟨pool3,
          (([] ++ [⟨symptomLabel symptoms report, out 0⟩]) ++
            [⟨lifestyleLabel symptoms report, out 1⟩]) ++
            [⟨dietLabel symptoms report (out 1) (retrieve_context symptoms),
              out 2⟩], 0 + 1 + 1 + 1⟩) := by
      rw [diet_eq_step]
      exact heq3
    refine ⟨_, _, _, hs1, hs2, hs3, ?_⟩
    simp

/-- C3 witness: three successful invocations in sequence from an empty
memory leave exactly the three turns in invocation order. -/
theorem C3_memory_append_only_witness :
    ∃ st1 st2 st3,
      symptom_agent (fun _ _ => CallResult.ok "out") "s" "r"
          ⟨⟨["k"], 0, []⟩, [], 0⟩ = .ok ("out", st1) ∧
      lifestyle_agent (fun _ _ => CallResult.ok "out") "s" "r" st1 =
        .ok ("out", st2) ∧
      diet_agent (fun _ _ => CallResult.ok "out") (fun _ => "kb") "s" "r"
          "out" st2 = .ok ("out", st3) ∧
      st3.memory = [⟨symptomLabel "s" "r", "out"⟩,
        ⟨lifestyleLabel "s" "r", "out"⟩,
        ⟨dietLabel "s" "r" "out" "kb", "out"⟩] :=
  (C3_memory_append_only (fun _ _ => CallResult.ok "out") (fun _ => "kb")
      (fun _ => "out") "s" "r" "ln" "dn"
      ⟨⟨["k"], 0, []⟩, [], 0⟩).2.2.2.2.2.2.2.2
    rfl rfl (by decide) (fun _ _ => rfl)

set_option maxRecDepth 8000 in
/-- C4 counterexample: the symptom agent embeds the FULL symptoms text in
the recorded turn's input (only the report part is truncated), so with a
200-character symptoms string the recorded input is 241 characters long —
above any fixed truncation constant of the code (120 and 160 are the only
ones present). -/
theorem C4_counterexample :
    symptom_agent (fun _ _ => CallResult.ok "out")
        (String.mk (List.replicate 200 'a')) ""
        ⟨⟨["keyA"], 0, []⟩, [], 0⟩ =
      .ok ("out", ⟨⟨["keyA"], 1, []⟩,
        [⟨symptomLabel (String.mk (List.replicate 200 'a')) "", "out"⟩],
        1⟩) ∧
    160 < (symptomLabel (String.mk (List.replicate 200 'a')) "").length :=
  ⟨rfl, by decide⟩

/-- C4 (amended): for the lifestyle, diet and fitness variants the
recorded input never exceeds the fixed label-plus-160-character bound
(178, 173 and 176 characters respectively); the symptom variant embeds
the full symptoms text, truncating only the report part to 120
characters; for every variant the recorded output is the full result
text, never truncated. -/
theorem C4_truncation_bounds (client : Client)
    (retrieve_context : String → String)
    (symptoms report lifestyle_notes diet_notes : String) (st : AgentState) :
    ((lifestyleLabel symptoms report).length ≤ 178) ∧
    ((dietLabel symptoms report lifestyle_notes
      (retrieve_context symptoms)).length ≤ 173) ∧
    ((fitnessLabel symptoms diet_notes).length ≤ 176) ∧
    ((pyTake report 120).length ≤ 120) ∧
    (∀ t st', symptom_agent client symptoms report st = .ok (t, st') →
      st'.memory = st.memory ++ [⟨symptomLabel symptoms report, t⟩]) ∧
    (∀ t st', lifestyle_agent client symptoms report st = .ok (t, st') →
      st'.memory = st.memory ++ [⟨lifestyleLabel symptoms report, t⟩]) ∧
    (∀ t st', diet_agent client retrieve_context symptoms report
        lifestyle_notes st = .ok (t, st') →
      st'.memory = st.memory ++ [⟨dietLabel symptoms report lifestyle_notes
        (retrieve_context symptoms), t⟩]) ∧
    (∀ t st', fitness_agent client symptoms diet_notes st = .ok (t, st') →
      st'.memory = st.memory ++ [⟨fitnessLabel symptoms diet_notes, t⟩]) := by
  refine ⟨lifestyleLabel_le symptoms report,
    dietLabel_le symptoms report lifestyle_notes (retrieve_context symptoms),
    fitnessLabel_le symptoms diet_notes,
    pyTake_length_le report 120, ?_, ?_, ?_, ?_⟩
  · intro t st' h
    rw [symptom_eq_step] at h
    exact agentStep_ok_memory h
  · intro t st' h
    rw [lifestyle_eq_step] at h
    exact agentStep_ok_memory h
  · intro t st' h
    rw [diet_eq_step] at h
    exact agentStep_ok_memory h
  · intro t st' h
    rw [fitness_eq_step] at h
    exact agentStep_ok_memory h

/-- C4 witness: the symptom-agent append equation at a concrete
successful run. -/
theorem C4_truncation_bounds_witness :
    (⟨⟨["k"], 1, []⟩, [⟨symptomLabel "s" "r", "out"⟩], 1⟩ :
        AgentState).memory =
      [] ++ [⟨symptomLabel "s" "r", "out"⟩] :=
  (C4_truncation_bounds (fun _ _ => CallResult.ok "out") (fun _ => "kb")
      "s" "r" "ln" "dn" ⟨⟨["k"], 0, []⟩, [], 0⟩).2.2.2.2.1 "out"
    ⟨⟨["k"], 1, []⟩, [⟨symptomLabel "s" "r", "out"⟩], 1⟩ rfl

/-- C5: the diet agent's composed task message contains the literal
lifestyle notes passed to it, and the fitness agent's composed task
message contains the literal diet notes passed to it. -/
theorem C5_chaining (symptoms report lifestyle_notes diet_notes : String)
    (retrieve_context : String → String) :
    (∃ pre post : String,
      dietPrompt symptoms report lifestyle_notes (retrieve_context symptoms) =
        pre ++ lifestyle_notes ++ post) ∧
    (∃ pre post : String,
      fitnessPrompt symptoms diet_notes = pre ++ diet_notes ++ post) := by
  constructor
  · refine ⟨"User symptoms:\n" ++ symptoms ++
      "\n\nRelevant medical report text (may be empty):\n" ++ report ++
      "\n\nLifestyle information from lifestyle_agent:\n",
      "\n\nEvidence / knowledge base snippets:\n" ++
        retrieve_context symptoms ++
        "\n\nSuggest a safe, balanced diet plan. Mention foods to prefer and foods to avoid. Highlight that this is not a replacement for a dietician or doctor.",
      ?_⟩
    simp [dietPrompt, String.append_assoc]
  · refine ⟨"User symptoms:\n" ++ symptoms ++
      "\n\nDiet constraints from diet_agent:\n",
      "\n\nRecommend only low‑risk, gentle physical activities, and clearly tell the user to stop if they feel pain or discomfort. Always remind them to talk to their doctor before starting or intensifying exercise.",
      ?_⟩
    simp [fitnessPrompt, String.append_assoc]

/-- C6: each agent's composed message list is exactly one variant-specific
static system instruction, the full shared history as read at invocation
time, then one task message built from the request fields; only the diet
variant consults the knowledge retriever — with the symptom text as the
query — and includes the snippets in its task message (the other three
variants take no retriever input at all). -/
theorem C6_message_composition (client : Client)
    (retrieve_context : String → String)
    (symptoms report lifestyle_notes diet_notes : String) (st : AgentState) :
    (symptom_agent client symptoms report st =
      agentStep client
        ([Message.system symptomSystem] ++ historyMessages st.memory ++
          [Message.human (symptomTask symptoms report)])
        (symptomLabel symptoms report) st) ∧
    (lifestyle_agent client symptoms report st =
      agentStep client
        ([Message.system lifestyleSystem] ++ historyMessages st.memory ++
          [Message.human (lifestylePrompt symptoms report)])
        (lifestyleLabel symptoms report) st) ∧
    (diet_agent client retrieve_context symptoms report lifestyle_notes st =
      agentStep client
        ([Message.system dietSystem] ++ historyMessages st.memory ++
          [Message.human (dietPrompt symptoms report lifestyle_notes
            (retrieve_context symptoms))])
        (dietLabel symptoms report lifestyle_notes
          (retrieve_context symptoms)) st) ∧
    (fitness_agent client symptoms diet_notes st =
      agentStep client
        ([Message.system fitnessSystem] ++ historyMessages st.memory ++
          [Message.human (fitnessPrompt symptoms diet_notes)])
        (fitnessLabel symptoms diet_notes) st) :=
  ⟨symptom_eq_step client symptoms report st,
    lifestyle_eq_step client symptoms report st,
    diet_eq_step client retrieve_context symptoms report lifestyle_notes st,
    fitness_eq_step client symptoms diet_notes st⟩

/-- C7: the key pool never returns a credential currently marked
exhausted while an available one exists; once a credential is marked
exhausted it is never returned again under any later sequence of pool
operations, as long as another credential remains available; and when
every credential is exhausted, `next` still returns some credential
(degraded mode) instead of failing. -/
theorem C7_keypool_invariants :
    (∀ (p : KeyPool) (k : String) (p' : KeyPool),
      (∃ a ∈ p.keys, a ∉ p.exhausted) → p.next = some (k, p') →
        k ∉ p.exhausted) ∧
    (∀ (p : KeyPool) (c : String) (ops : List PoolOp) (k : String)
        (q' : KeyPool),
      (∃ a ∈ (applyOps (p.markExhausted c) ops).keys,
        a ∉ (applyOps (p.markExhausted c) ops).exhausted) →
      (applyOps (p.markExhausted c) ops).next = some (k, q') → k ≠ c) ∧
    (∀ p : KeyPool, p.keys ≠ [] → (∀ k ∈ p.keys, k ∈ p.exhausted) →
      p.next.isSome) := by
  refine ⟨?_, ?_, ?_⟩
  · intro p k p' havail hnext
    exact next_avail havail k p' hnext
  · intro p c ops k q' havail hnext hkc
    subst hkc
    have hmem : k ∈ (applyOps (p.markExhausted k) ops).exhausted :=
      applyOps_exhausted_mono ops (markExhausted_mem_self p k)
    exact next_avail havail k q' hnext hmem
  · intro p hkeys _
    exact next_isSome_of_ne_nil hkeys

/-- C7 witness: the three pool invariants at concrete pools. -/
theorem C7_keypool_invariants_witness :
    ("a" ∉ (⟨["a", "b"], 0, []⟩ : KeyPool).exhausted) ∧
    ("b" ≠ "a") ∧
    (KeyPool.next ⟨["a"], 0, ["a"]⟩).isSome := by
  refine ⟨?_, ?_, ?_⟩
  · exact C7_keypool_invariants.1 ⟨["a", "b"], 0, []⟩ "a" ⟨["a", "b"], 1, []⟩
      ⟨"a", by decide, by decide⟩ rfl
  · exact C7_keypool_invariants.2.1 ⟨["a", "b"], 0, []⟩ "a" [] "b"
      ⟨["a", "b"], 2, ["a"]⟩ ⟨"b", by decide, by decide⟩ rfl
  · exact C7_keypool_invariants.2.2 ⟨["a"], 0, ["a"]⟩ (by decide) (by decide)

/-- C8: `save_history` appends the entry at the end of exactly that
user's list (creating the list when the user — or the whole file — is
absent) and leaves every other user's list unchanged; `get_history`
returns the stored ordered list, and the empty list when nothing is
recorded (including a missing file). -/
theorem C8_history_store {α : Type} (fs : HistoryFile α) (u v : String)
    (e : α) :
    (get_history u (save_history u e fs) = get_history u fs ++ [e]) ∧
    (v ≠ u → get_history v (save_history u e fs) = get_history v fs) ∧
    (get_history u (none : HistoryFile α) = []) ∧
    (save_history u e (none : HistoryFile α) = some [(u, [e])]) := by
  refine ⟨?_, ?_, rfl, rfl⟩
  · simp [get_history, save_history, save, load, lookup_setdefaultAppend_self]
  · intro hvu
    simp [get_history, save_history, save, load,
      lookup_setdefaultAppend_other _ u v e hvu]

/-- C8 witness: appending under one user leaves the other user's history
unchanged at a concrete store. -/
theorem C8_history_store_witness :
    get_history "bob" (save_history "alice" "h3"
        (some [("alice", ["h1"]), ("bob", ["h2"])])) =
      get_history "bob" (some [("alice", ["h1"]), ("bob", ["h2"])]) :=
  (C8_history_store (some [("alice", ["h1"]), ("bob", ["h2"])]) "alice"
    "bob" "h3").2.1 (by decide)

/-- C9: the two textual definitions of `save_history` and the two of
`get_history` in the history store compute the same result and the same
file-state change on every input — the store behaves as a single
canonical append/fetch pair. -/
theorem C9_duplicate_definitions {α : Type} (user_id : String) (entry : α)
    (fs : HistoryFile α) :
    save_history user_id entry fs = save_history2 user_id entry fs ∧
    get_history user_id fs = get_history2 user_id fs :=
  ⟨rfl, rfl⟩

/-- C10: `create_user` returns `false` and leaves the stored users
untouched when the username already exists, otherwise appends exactly one
record and returns `true`; hence username uniqueness is preserved. -/
theorem C10_create_user_unique (fs : UsersFile)
    (username password full_name : String) :
    ((loadUsers fs).any (fun u => u.username == username) = true →
      create_user username password full_name fs = (false, fs)) ∧
    ((loadUsers fs).any (fun u => u.username == username) = false →
      create_user username password full_name fs =
        (true, some (loadUsers fs ++ [⟨username, password, full_name⟩]))) ∧
    (List.Pairwise (fun a b => a.username ≠ b.username) (loadUsers fs) →
      List.Pairwise (fun a b => a.username ≠ b.username)
        (loadUsers (create_user username password full_name fs).2)) := by
  refine ⟨?_, ?_, ?_⟩
  · intro h
    simp [create_user, h]
  · intro h
    simp [create_user, h]
  · intro hpw
    by_cases h : (loadUsers fs).any (fun u => u.username == username) = true
    · simpa [create_user, h] using hpw
    · have hfalse : (loadUsers fs).any (fun u => u.username == username) =
          false := by
        simpa using h
      have hne : ∀ a ∈ loadUsers fs, a.username ≠ username := by
        intro a ha
        have := List.any_eq_false.mp hfalse a ha
        simpa using this
      have hstep : create_user username password full_name fs =
          (true, some (loadUsers fs ++ [⟨username, password, full_name⟩])) := by
        simp [create_user, hfalse]
      rw [hstep]
      show List.Pairwise (fun a b => a.username ≠ b.username)
        (loadUsers fs ++ [⟨username, password, full_name⟩])
      rw [List.pairwise_append]
      refine ⟨hpw, List.pairwise_singleton _ _, ?_⟩
      intro a ha b hb
      simp only [List.mem_singleton] at hb
      subst hb
      exact hne a ha

/-- C10 witness: creating a duplicate username at a concrete store is
rejected and leaves the store unchanged. -/
theorem C10_create_user_unique_witness :
    create_user "alice" "pw2" "Alice B"
        (some [⟨"alice", "pw", "Alice"⟩]) =
      (false, some [⟨"alice", "pw", "Alice"⟩]) :=
  (C10_create_user_unique (some [⟨"alice", "pw", "Alice"⟩]) "alice" "pw2"
    "Alice B").1 (by decide)
